import Mathlib

/-!
Verification of the filamentseek-model catalog core (src/product.rs, src/lib.rs).

The development shallowly embeds the Rust source:
arithmetic on `f32` is modelled exactly by `F32`, an integer-significand
representation of IEEE-754 binary32 values (round to nearest, ties to even,
with infinities and NaN); machine integers `u16` / `u32` are modelled by `ℕ`
with explicit range hypotheses where a claim is about the machine domain;
the fallible conversions (`FromStr`, `TryFrom`) return `Except`, and the
`.unwrap()` inside the `From<String>` conversions is modelled by `Option`
(`none` = panic).
-/

/-! ## Exact model of IEEE-754 binary32 arithmetic -/

/-- Fuel-driven base-2 integer logarithm (structural recursion so the kernel can evaluate it). -/
def natLog2Fuel : ℕ → ℕ → ℕ
  | 0, _ => 0
  | f + 1, n => if n ≤ 1 then 0 else natLog2Fuel f (n / 2) + 1

/-- Base-2 integer logarithm: for n ≥ 1 the largest k with 2 ^ k ≤ n. -/
def natLog2 (n : ℕ) : ℕ := natLog2Fuel n n

/-- Round the fraction num / den (den ≥ 1) to the nearest natural number,
ties to even: take the integer part, then compare twice the remainder with
the denominator to decide the direction, rounding a tie toward the even
neighbour. -/
def rneFrac (num den : ℕ) : ℕ :=
  if 2 * (num % den) < den then num / den
  else if den < 2 * (num % den) then num / den + 1
  else if (num / den) % 2 = 0 then num / den else num / den + 1

/-- An IEEE-754 binary32 value: a finite value m * 2 ^ e in canonical form
(|m| < 2 ^ 24, e ≥ -149, and |m| < 2 ^ 23 only for e = -149, so equal values
have equal representations), or an infinity, or NaN.  Signed zero is not
distinguished; the source only feeds non-negative values into the operations
modelled here. -/
inductive F32 where
  | finite (m : Int) (e : Int)
  | inf
  | neginf
  | nan
deriving DecidableEq

/-- Negation of a binary32 value. -/
def F32.neg : F32 → F32
  | .finite m e => .finite (-m) e
  | .inf => .neginf
  | .neginf => .inf
  | .nan => .nan

/-- First guess at the floor base-2 logarithm of (a * 2 ^ k) / b, from the
integer logarithms of a and b; it is off by at most one (too big). -/
def log2Guess (a b : ℕ) (k : Int) : Int := (natLog2 a : Int) - natLog2 b + k

/-- Floor of the base-2 logarithm of the positive rational (a * 2 ^ k) / b:
one exact integer comparison (2 ^ guess ≤ (a * 2 ^ k) / b, cleared of
denominators by moving the power of two to whichever side keeps every
quantity a natural) corrects the guess. -/
def floorLog2Frac (a : ℕ) (k : Int) (b : ℕ) : Int :=
  if (if 0 ≤ k - log2Guess a b k
      then b ≤ a * 2 ^ (k - log2Guess a b k).toNat
      else b * 2 ^ (-(k - log2Guess a b k)).toNat ≤ a)
  then log2Guess a b k
  else log2Guess a b k - 1

/-- The rounded significand of (a * 2 ^ k) / b at unit-in-the-last-place
exponent u: round (a * 2 ^ k) / (b * 2 ^ u) to the nearest integer, ties to
even, with the power of two cleared into whichever side makes it a ratio of
naturals. -/
def f32Sig (a : ℕ) (k : Int) (b : ℕ) (u : Int) : ℕ :=
  rneFrac (a * 2 ^ (k - u).toNat) (b * 2 ^ (u - k).toNat)

/-- Assemble a rounded significand m at ulp exponent u into a binary32 value:
carry a significand that rounded up to 2 ^ 24 into the next binade, and
overflow to infinity exactly when the value m * 2 ^ u reaches 2 ^ 128
(the comparison is taken at scale 2 ^ 149 so both sides are naturals). -/
def f32Assemble (m : ℕ) (u : Int) : F32 :=
  if 2 ^ 24 ≤ m then
    (if 2 ^ 277 ≤ (m / 2) * 2 ^ (u + 1 + 149).toNat then F32.inf
     else .finite (m / 2) (u + 1))
  else
    (if 2 ^ 277 ≤ m * 2 ^ (u + 149).toNat then F32.inf
     else .finite m u)

/-- Round the positive real number (a * 2 ^ k) / b (a, b ≥ 1) to the nearest
binary32 value, ties to even.  The ulp exponent is e - 23 for a normal
result and -149 for a subnormal one, where e is the floor base-2 logarithm
of the value. -/
def roundPosF32 (a : ℕ) (k : Int) (b : ℕ) : F32 :=
  if a = 0 ∨ b = 0 then .nan
  else
    f32Assemble (f32Sig a k b (max (floorLog2Frac a k b - 23) (-149)))
      (max (floorLog2Frac a k b - 23) (-149))

/-- Round the real number (n1 / n2) * 2 ^ k (n2 ≠ 0) to the nearest binary32 value. -/
def roundFracF32 (n1 n2 : Int) (k : Int) : F32 :=
  if n1 = 0 then .finite 0 (-149)
  else if 0 < n1 * n2 then roundPosF32 n1.natAbs k n2.natAbs
  else (roundPosF32 n1.natAbs k n2.natAbs).neg

/-- Conversion of an unsigned machine integer to f32 (Rust `as f32`, round to nearest even). -/
def F32.ofNat (n : ℕ) : F32 := roundFracF32 n 1 0

/-- Value of a decimal f32 literal denoting n / d (rounded to the nearest
binary32 value, which is the semantics of a Rust float literal). -/
def F32.decimalLit (n d : ℕ) : F32 := roundFracF32 n d 0

/-- IEEE binary32 division: finite / 0 is a signed infinity (NaN for 0 / 0),
finite quotients are rounded to nearest. -/
def F32.div : F32 → F32 → F32
  | .nan, _ => .nan
  | _, .nan => .nan
  | .finite m1 e1, .finite m2 e2 =>
      if m2 = 0 then
        (if m1 = 0 then .nan else if 0 < m1 then .inf else .neginf)
      else roundFracF32 m1 m2 (e1 - e2)
  | .finite _ _, .inf => .finite 0 (-149)
  | .finite _ _, .neginf => .finite 0 (-149)
  | .inf, .finite m _ => if m < 0 then .neginf else .inf
  | .neginf, .finite m _ => if m < 0 then .inf else .neginf
  | .inf, .inf => .nan
  | .inf, .neginf => .nan
  | .neginf, .inf => .nan
  | .neginf, .neginf => .nan

/-- IEEE binary32 multiplication. -/
def F32.mul : F32 → F32 → F32
  | .nan, _ => .nan
  | _, .nan => .nan
  | .finite m1 e1, .finite m2 e2 => roundFracF32 (m1 * m2) 1 (e1 + e2)
  | .inf, .finite m _ => if m = 0 then .nan else if 0 < m then .inf else .neginf
  | .finite m _, .inf => if m = 0 then .nan else if 0 < m then .inf else .neginf
  | .neginf, .finite m _ => if m = 0 then .nan else if 0 < m then .neginf else .inf
  | .finite m _, .neginf => if m = 0 then .nan else if 0 < m then .neginf else .inf
  | .inf, .inf => .inf
  | .inf, .neginf => .neginf
  | .neginf, .inf => .neginf
  | .neginf, .neginf => .inf

/-- Rust `f32::round`: round a finite value to the nearest integer, ties away
from zero (the result is always exactly representable, because values of
magnitude at least 2 ^ 23 are already integers). -/
def F32.round : F32 → F32
  | .finite m e =>
      if 0 ≤ e then .finite m e
      else
        roundFracF32 (m.sign * ((m.natAbs + 2 ^ (-e).toNat / 2) / 2 ^ (-e).toNat : ℕ)) 1 0
  | x => x

/-- Rust `as u32` on an f32 value: truncate toward zero and saturate to
[0, 2 ^ 32 - 1]; NaN converts to 0 (Rust's saturating float-to-int cast). -/
def F32.toU32 : F32 → ℕ
  | .nan => 0
  | .inf => 2 ^ 32 - 1
  | .neginf => 0
  | .finite m e =>
      if m ≤ 0 then 0
      else min (if 0 ≤ e then m.toNat * 2 ^ e.toNat else m.toNat / 2 ^ (-e).toNat) (2 ^ 32 - 1)

deriving instance DecidableEq for Except

/-! ## Measurement newtypes and identity (product.rs) -/

/-- Cents(pub u32). -/
structure Cents where
  val : ℕ
deriving DecidableEq

/-- Celsius(pub u16). -/
structure Celsius where
  val : ℕ
deriving DecidableEq

/-- Grams(pub u16). -/
structure Grams where
  val : ℕ
deriving DecidableEq

/-- SsUuid from the surreal_socket crate (outside this repository): a
globally unique identity with a canonical textual rendering. -/
structure SsUuid where
  val : String
deriving DecidableEq

/-- Modelled from the spec: `SsUuid::to_uuid_string` (surreal_socket crate,
outside this repository) renders the identity as its canonical UUID-shaped
textual form; the identity is carried here directly as that string. -/
def SsUuid.to_uuid_string (u : SsUuid) : String := u.val

/-! ## Open-set enumerations (product.rs) -/

inductive FilamentMaterial where
  | PLA
  | PLAPlus
  | ABS
  | PETG
  | TPU
  | Nylon
  | PC
  | ASA
  | Unspecified
  | Other (s : String)
deriving DecidableEq

/-- FromStr for FilamentMaterial: the Rust match over string literals is a
first-match-wins equality chain ending in the catch-all; the whole body is
wrapped in Ok, so the error type is never produced. -/
def FilamentMaterial.from_str (s : String) : Except Unit FilamentMaterial :=
  Except.ok <|
    if s = "PLA" then .PLA
    else if s = "PLAPlus" then .PLAPlus
    else if s = "ABS" then .ABS
    else if s = "PETG" then .PETG
    else if s = "TPU" then .TPU
    else if s = "Nylon" then .Nylon
    else if s = "PC" then .PC
    else if s = "ASA" then .ASA
    else if s = "Unspecified" then .Unspecified
    else .Other s

/-- Display for FilamentMaterial (also `From<FilamentMaterial> for String`). -/
def FilamentMaterial.toString : FilamentMaterial → String
  | .PLA => "PLA"
  | .PLAPlus => "PLAPlus"
  | .ABS => "ABS"
  | .PETG => "PETG"
  | .TPU => "TPU"
  | .Nylon => "Nylon"
  | .PC => "PC"
  | .ASA => "ASA"
  | .Unspecified => "Unspecified"
  | .Other s => s

/-- `From<String> for FilamentMaterial`: `from_str` followed by `.unwrap()`;
a `none` result models a panic of the unwrap. -/
def FilamentMaterial.from_string (s : String) : Option FilamentMaterial :=
  (FilamentMaterial.from_str s).toOption

/-- The canonical raw forms of the known FilamentMaterial variants, in match order. -/
def FilamentMaterial.canonicalForms : List String :=
  ["PLA", "PLAPlus", "ABS", "PETG", "TPU", "Nylon", "PC", "ASA", "Unspecified"]

inductive Retailer where
  | Amazon
  | Other (s : String)
deriving DecidableEq

/-- FromStr for Retailer. -/
def Retailer.from_str (s : String) : Except Unit Retailer :=
  Except.ok <| if s = "Amazon" then .Amazon else .Other s

/-- Display for Retailer (also `From<Retailer> for String`). -/
def Retailer.toString : Retailer → String
  | .Amazon => "Amazon"
  | .Other s => s

/-- `From<String> for Retailer`: `from_str` followed by `.unwrap()`. -/
def Retailer.from_string (s : String) : Option Retailer :=
  (Retailer.from_str s).toOption

/-- Filament diameter in hundredths of a millimeter; the raw representation
type is u16, modelled by ℕ with explicit bounds where a claim is about the
machine domain. -/
inductive FilamentDiameter where
  | D175
  | D285
  | Other (x : ℕ)
deriving DecidableEq

/-- `From<FilamentDiameter> for u16`. -/
def FilamentDiameter.toU16 : FilamentDiameter → ℕ
  | .D175 => 175
  | .D285 => 285
  | .Other x => x

/-- `TryFrom<u16> for FilamentDiameter`: the match is a first-match-wins
equality chain ending in the catch-all, wrapped in Ok, so the error string
is never produced. -/
def FilamentDiameter.try_from (v : ℕ) : Except String FilamentDiameter :=
  Except.ok <|
    if v = 175 then .D175
    else if v = 285 then .D285
    else .Other v

/-- `FilamentDiameter::mm`: the literals 1.75 and 2.85 are decimal f32
literals, and the catch-all arm computes `hundredths as f32 / 100.0`. -/
def FilamentDiameter.mm : FilamentDiameter → F32
  | .D175 => F32.decimalLit 175 100
  | .D285 => F32.decimalLit 285 100
  | .Other hundredths => (F32.ofNat hundredths).div (F32.decimalLit 100 1)

/-! ## The record entity and its projections (product.rs) -/

structure Product where
  uuid : SsUuid
  name : String
  price : Cents
  price_per_kg : Cents
  url : String
  material : FilamentMaterial
  diameter : FilamentDiameter
  weight : Grams
  retailer : Retailer
  retailer_product_id : String
  color : String
deriving DecidableEq

/-- ProductRequest: the creation request shape; it has no uuid field and no
price_per_kg field. -/
structure ProductRequest where
  name : String
  price : Cents
  url : String
  material : FilamentMaterial
  diameter : FilamentDiameter
  weight : Grams
  retailer : Retailer
  retailer_product_id : String
  color : String
deriving DecidableEq

/-- ProductResponse: the outbound shape; the identity appears as its
canonical string rendering. -/
structure ProductResponse where
  uuid : String
  name : String
  price : Cents
  price_per_kg : Cents
  url : String
  material : FilamentMaterial
  diameter : FilamentDiameter
  weight : Grams
  retailer : Retailer
  retailer_product_id : String
  color : String
deriving DecidableEq

/-- `impl From<ProductRequest> for Product`: the freshly generated identity
(`SsUuid::new()`, a random draw in the source) is passed in explicitly;
every caller-supplied field is copied and price_per_kg is forced to 0. -/
def Product.from_request (new_uuid : SsUuid) (request : ProductRequest) : Product :=
  { uuid := new_uuid
    name := request.name
    price := request.price
    price_per_kg := ⟨0⟩
    url := request.url
    material := request.material
    diameter := request.diameter
    weight := request.weight
    retailer := request.retailer
    retailer_product_id := request.retailer_product_id
    color := request.color }

/-- `impl From<Product> for ProductResponse`: render the identity to its
canonical string and pass every other field through. -/
def Product.to_response (product : Product) : ProductResponse :=
  { uuid := product.uuid.to_uuid_string
    name := product.name
    price := product.price
    price_per_kg := product.price_per_kg
    url := product.url
    material := product.material
    diameter := product.diameter
    weight := product.weight
    retailer := product.retailer
    retailer_product_id := product.retailer_product_id
    color := product.color }

/-! ## The derived-field consistency hook (product.rs) -/

/-- The numeric computation of `Product::post_update_hook`:
`((price as f32 / weight as f32) * 1000.0).round() as u32`. -/
def pricePerKg (price weight : ℕ) : ℕ :=
  (((F32.ofNat price).div (F32.ofNat weight)).mul (F32.decimalLit 1000 1)).round.toU32

/-- The derived price-per-kilogram the hook computes for a record. -/
def Product.hook_price_per_kg (p : Product) : ℕ :=
  pricePerKg p.price.val p.weight.val

/-- Exact rounding of num / den to the nearest natural number, ties away from
zero ((2 num + den) / (2 den) in natural division): the infinitely precise
value the spec writes as round(price / weight * 1000). -/
def exactRoundFrac (num den : ℕ) : ℕ := (2 * num + den) / (2 * den)

/-- The exact rational round(price * 1000 / weight), for comparison with the
floating-point computation. -/
def exactPricePerKg (price weight : ℕ) : ℕ := exactRoundFrac (price * 1000) weight

/-- `DBRecord::TABLE_NAME` for Product. -/
def Product.TABLE_NAME : String := "products"

/-- Modelled from the spec: the identity field name used by the store
(`DBRecord::UUID_FIELD` of the surreal_socket crate, outside this
repository); the hook filters on equality of this field. -/
def UUID_FIELD : String := "uuid"

/-- The shape of the single-field update statement the hook issues:
`UPDATE {table} SET {set_field} = {set_value} WHERE {filter_field} = {filter_value}`.
The source assembles exactly this statement as a query string. -/
structure UpdateQuery where
  table : String
  set_field : String
  set_value : ℕ
  filter_field : String
  filter_value : SsUuid
deriving DecidableEq

/-- The statement issued by `Product::post_update_hook`: update price_per_kg
to the recomputed value on the record whose identity equals this record's
identity. -/
def Product.post_update_query (p : Product) : UpdateQuery :=
  { table := Product.TABLE_NAME
    set_field := "price_per_kg"
    set_value := p.hook_price_per_kg
    filter_field := UUID_FIELD
    filter_value := p.uuid }

/-- Modelled from the spec: the record store collaborator (outside this
repository) executes a single-field UPDATE by setting the named field on
every stored record whose identity equals the filter value, leaving every
other record and every other field unchanged; price_per_kg is the only
field the hook's statement shape ever names. -/
def applyUpdate (q : UpdateQuery) (store : List Product) : List Product :=
  store.map fun r =>
    if q.filter_field = UUID_FIELD ∧ r.uuid = q.filter_value ∧ q.set_field = "price_per_kg" then
      { r with price_per_kg := ⟨q.set_value⟩ }
    else r

/-! ## Facts about the binary32 rounding pipeline -/

lemma natLog2Fuel_le (f : ℕ) : ∀ n : ℕ, 0 < n → n ≤ f → 2 ^ natLog2Fuel f n ≤ n := by
  induction f with
  | zero => intro n hn hf; omega
  | succ f ih =>
    intro n hn hf
    simp only [natLog2Fuel]
    split_ifs with h
    · simpa using hn
    · have hrec := ih (n / 2) (by omega) (by omega)
      have hp : 2 ^ (natLog2Fuel f (n / 2) + 1) = 2 * 2 ^ natLog2Fuel f (n / 2) := by ring
      rw [hp]
      omega

lemma natLog2_le (n : ℕ) (hn : 0 < n) : 2 ^ natLog2 n ≤ n :=
  natLog2Fuel_le n n hn le_rfl

lemma rneFrac_lower (num den : ℕ) : num / den ≤ rneFrac num den := by
  unfold rneFrac
  split_ifs <;> omega

lemma log2Guess_nat (a : ℕ) : log2Guess a 1 0 = natLog2 a := by
  have h1 : natLog2 1 = 0 := rfl
  simp [log2Guess, h1]

lemma floorLog2Frac_nat (a : ℕ) (ha : 0 < a) : floorLog2Frac a 0 1 = natLog2 a := by
  have hlog := natLog2_le a ha
  unfold floorLog2Frac
  rw [log2Guess_nat]
  split_ifs with hd hc hc
  · rfl
  · exfalso
    apply hc
    have hpow : 0 < 2 ^ ((0 : Int) - (natLog2 a : Int)).toNat :=
      Nat.pos_pow_of_pos _ (by norm_num)
    calc 1 ≤ a := ha
    _ ≤ a * 2 ^ ((0 : Int) - (natLog2 a : Int)).toNat := Nat.le_mul_of_pos_right _ hpow
  · rfl
  · exfalso
    apply hc
    have ht : (-((0 : Int) - (natLog2 a : Int))).toNat = natLog2 a := by omega
    rw [ht]
    simpa using hlog

lemma f32Sig_nat_pos (a : ℕ) (ha : 0 < a) :
    0 < f32Sig a 0 1 ((natLog2 a : Int) - 23) := by
  have hlog := natLog2_le a ha
  unfold f32Sig
  rcases le_or_lt (natLog2 a) 23 with h | h
  · have h1 : ((0 : Int) - ((natLog2 a : Int) - 23)).toNat = 23 - natLog2 a := by omega
    have h2 : (((natLog2 a : Int) - 23) - 0).toNat = 0 := by omega
    rw [h1, h2]
    have hX : 0 < a * 2 ^ (23 - natLog2 a) :=
      Nat.mul_pos ha (Nat.pos_pow_of_pos _ (by norm_num))
    calc 0 < a * 2 ^ (23 - natLog2 a) / (1 * 2 ^ 0) := by simpa using hX
    _ ≤ rneFrac (a * 2 ^ (23 - natLog2 a)) (1 * 2 ^ 0) := rneFrac_lower _ _
  · have h1 : ((0 : Int) - ((natLog2 a : Int) - 23)).toNat = 0 := by omega
    have h2 : (((natLog2 a : Int) - 23) - 0).toNat = natLog2 a - 23 := by omega
    rw [h1, h2]
    have hge : 1 * 2 ^ (natLog2 a - 23) ≤ a * 2 ^ 0 := by
      have hp : (2 : ℕ) ^ (natLog2 a - 23) ≤ 2 ^ natLog2 a :=
        Nat.pow_le_pow_right (by norm_num) (by omega)
      simpa using hp.trans hlog
    calc 0 < a * 2 ^ 0 / (1 * 2 ^ (natLog2 a - 23)) :=
      Nat.div_pos hge (Nat.mul_pos (by norm_num) (Nat.pos_pow_of_pos _ (by norm_num)))
    _ ≤ rneFrac (a * 2 ^ 0) (1 * 2 ^ (natLog2 a - 23)) := rneFrac_lower _ _

lemma f32Assemble_cases (m : ℕ) (u : Int) (hm : 0 < m) :
    f32Assemble m u = F32.inf ∨ ∃ m' e', f32Assemble m u = F32.finite m' e' ∧ 0 < m' := by
  unfold f32Assemble
  split_ifs with h1 h2 h3
  · left; rfl
  · right
    refine ⟨m / 2, u + 1, rfl, ?_⟩
    have : 0 < m / 2 := Nat.div_pos (le_trans (by norm_num) h1) (by norm_num)
    exact_mod_cast this
  · left; rfl
  · right
    exact ⟨m, u, rfl, by exact_mod_cast hm⟩

lemma roundPosF32_nat_cases (a : ℕ) (ha : 0 < a) :
    roundPosF32 a 0 1 = F32.inf ∨ ∃ m e, roundPosF32 a 0 1 = F32.finite m e ∧ 0 < m := by
  unfold roundPosF32
  rw [if_neg (by omega), floorLog2Frac_nat a ha]
  have hmax : max ((natLog2 a : Int) - 23) (-149) = (natLog2 a : Int) - 23 :=
    max_eq_left (by omega)
  rw [hmax]
  exact f32Assemble_cases _ _ (f32Sig_nat_pos a ha)

lemma ofNat_cases (n : ℕ) (hn : 0 < n) :
    F32.ofNat n = F32.inf ∨ ∃ m e, F32.ofNat n = F32.finite m e ∧ 0 < m := by
  unfold F32.ofNat roundFracF32
  rw [if_neg (by exact_mod_cast hn.ne'), if_pos (by simpa using Int.natCast_pos.mpr hn)]
  simpa using roundPosF32_nat_cases n hn

lemma pricePerKg_zero_weight (p : ℕ) (hp : 0 < p) : pricePerKg p 0 = 2 ^ 32 - 1 := by
  unfold pricePerKg
  have h0 : F32.ofNat 0 = .finite 0 (-149) := rfl
  have hlit : F32.decimalLit 1000 1 = .finite 16384000 (-14) := by decide
  rcases ofNat_cases p hp with h | ⟨m, e, h, hm⟩
  · rw [h, h0, hlit]
    decide
  · rw [h, h0, hlit]
    show ((if (0 : Int) = 0 then
        (if m = 0 then F32.nan else if 0 < m then F32.inf else F32.neginf)
      else roundFracF32 m 0 (e - -149)).mul (.finite 16384000 (-14))).round.toU32 = 2 ^ 32 - 1
    rw [if_pos rfl, if_neg (by omega), if_pos hm]
    decide

/-! ## Facts about the open-set enumeration codecs -/

lemma material_encode_decode (s : String) :
    (FilamentMaterial.from_str s).map FilamentMaterial.toString = Except.ok s := by
  unfold FilamentMaterial.from_str
  split_ifs with h1 h2 h3 h4 h5 h6 h7 h8 h9 <;>
    simp_all [FilamentMaterial.toString, Except.map]

lemma retailer_encode_decode (s : String) :
    (Retailer.from_str s).map Retailer.toString = Except.ok s := by
  unfold Retailer.from_str
  split_ifs with h1 <;> simp_all [Retailer.toString, Except.map]

lemma diameter_encode_decode (v : ℕ) :
    (FilamentDiameter.try_from v).map FilamentDiameter.toU16 = Except.ok v := by
  unfold FilamentDiameter.try_from
  split_ifs with h1 h2 <;> simp_all [FilamentDiameter.toU16, Except.map]

lemma material_decode_unknown (s : String)
    (h : s ∉ FilamentMaterial.canonicalForms) :
    FilamentMaterial.from_str s = Except.ok (.Other s) := by
  simp only [FilamentMaterial.canonicalForms, List.mem_cons, List.not_mem_nil, or_false,
    not_or] at h
  obtain ⟨h1, h2, h3, h4, h5, h6, h7, h8, h9⟩ := h
  unfold FilamentMaterial.from_str
  rw [if_neg h1, if_neg h2, if_neg h3, if_neg h4, if_neg h5, if_neg h6, if_neg h7,
    if_neg h8, if_neg h9]

lemma retailer_decode_unknown (s : String) (h : s ≠ "Amazon") :
    Retailer.from_str s = Except.ok (.Other s) := by
  unfold Retailer.from_str
  rw [if_neg h]

lemma diameter_decode_unknown (v : ℕ) (h175 : v ≠ 175) (h285 : v ≠ 285) :
    FilamentDiameter.try_from v = Except.ok (.Other v) := by
  unfold FilamentDiameter.try_from
  rw [if_neg h175, if_neg h285]

lemma material_decode_inj {s₁ s₂ : String} {m : FilamentMaterial}
    (hd₁ : FilamentMaterial.from_str s₁ = Except.ok m)
    (hd₂ : FilamentMaterial.from_str s₂ = Except.ok m) : s₁ = s₂ := by
  have e₁ := material_encode_decode s₁
  have e₂ := material_encode_decode s₂
  rw [hd₁] at e₁
  rw [hd₂] at e₂
  simp only [Except.map] at e₁ e₂
  have v₁ : m.toString = s₁ := by injection e₁
  have v₂ : m.toString = s₂ := by injection e₂
  rw [← v₁, ← v₂]

lemma retailer_decode_inj {s₁ s₂ : String} {r : Retailer}
    (hd₁ : Retailer.from_str s₁ = Except.ok r)
    (hd₂ : Retailer.from_str s₂ = Except.ok r) : s₁ = s₂ := by
  have e₁ := retailer_encode_decode s₁
  have e₂ := retailer_encode_decode s₂
  rw [hd₁] at e₁
  rw [hd₂] at e₂
  simp only [Except.map] at e₁ e₂
  have v₁ : r.toString = s₁ := by injection e₁
  have v₂ : r.toString = s₂ := by injection e₂
  rw [← v₁, ← v₂]

lemma diameter_decode_inj {v₁ v₂ : ℕ} {d : FilamentDiameter}
    (hd₁ : FilamentDiameter.try_from v₁ = Except.ok d)
    (hd₂ : FilamentDiameter.try_from v₂ = Except.ok d) : v₁ = v₂ := by
  have e₁ := diameter_encode_decode v₁
  have e₂ := diameter_encode_decode v₂
  rw [hd₁] at e₁
  rw [hd₂] at e₂
  simp only [Except.map] at e₁ e₂
  have v₁' : d.toU16 = v₁ := by injection e₁
  have v₂' : d.toU16 = v₂ := by injection e₂
  rw [← v₁', ← v₂']

/-! ## Sample records used by witness statements -/

def sampleUuid : SsUuid := ⟨"f47ac10b-58cc-4372-a567-0e02b2c3d479"⟩

def sampleProduct : Product :=
  { uuid := sampleUuid
    name := "Example PLA Spool"
    price := ⟨2000⟩
    price_per_kg := ⟨0⟩
    url := "https://example.com/spool"
    material := .PLA
    diameter := .D175
    weight := ⟨1000⟩
    retailer := .Amazon
    retailer_product_id := "B00EXAMPLE"
    color := "black" }

def zeroWeightProduct : Product := { sampleProduct with weight := ⟨0⟩ }

/-! ## The claims -/

/-- C1, counterexample: the round-trip law decode(encode(v)) = v fails as
stated for catch-all values carrying a canonical raw form: encoding
FilamentMaterial.Other "PLA" yields the string "PLA", which decodes to the
known variant PLA, not back to the catch-all. -/
theorem decode_encode_counterexample :
    FilamentMaterial.from_str (FilamentMaterial.toString (.Other "PLA")) ≠
      Except.ok (FilamentMaterial.Other "PLA") := by decide

/-- C1, amended: for each of the three open-set enumeration families,
decoding the encoding of a value v returns exactly v, for every known
variant and for every catch-all value whose raw form is not the canonical
form of a known variant (the only values a decode can ever produce). -/
theorem decode_encode_amended :
    (∀ m : FilamentMaterial,
        (∀ s, m = FilamentMaterial.Other s → s ∉ FilamentMaterial.canonicalForms) →
        FilamentMaterial.from_str (FilamentMaterial.toString m) = Except.ok m)
    ∧ (∀ r : Retailer, (∀ s, r = Retailer.Other s → s ≠ "Amazon") →
        Retailer.from_str (Retailer.toString r) = Except.ok r)
    ∧ (∀ d : FilamentDiameter,
        (∀ x, d = FilamentDiameter.Other x → x ≠ 175 ∧ x ≠ 285) →
        FilamentDiameter.try_from (FilamentDiameter.toU16 d) = Except.ok d) := by
  refine ⟨?_, ?_, ?_⟩
  · intro m hm
    cases m
    case Other s => exact material_decode_unknown s (hm s rfl)
    all_goals decide
  · intro r hr
    cases r
    case Other s => exact retailer_decode_unknown s (hr s rfl)
    case Amazon => decide
  · intro d hd
    cases d
    case Other x =>
      obtain ⟨h175, h285⟩ := hd x rfl
      exact diameter_decode_unknown x h175 h285
    all_goals decide

/-- C1, witness: the amended round-trip law applied to one concrete
non-shadowed catch-all value in each family. -/
theorem decode_encode_amended_witness :
    FilamentMaterial.from_str (FilamentMaterial.toString (.Other "Carbon-Fiber-PLA")) =
      Except.ok (FilamentMaterial.Other "Carbon-Fiber-PLA")
    ∧ Retailer.from_str (Retailer.toString (.Other "MatterHackers")) =
      Except.ok (Retailer.Other "MatterHackers")
    ∧ FilamentDiameter.try_from (FilamentDiameter.toU16 (.Other 300)) =
      Except.ok (FilamentDiameter.Other 300) :=
  ⟨decode_encode_amended.1 (.Other "Carbon-Fiber-PLA")
      (by intro s hs; injection hs with h; subst h; decide),
   decode_encode_amended.2.1 (.Other "MatterHackers")
      (by intro s hs; injection hs with h; subst h; decide),
   decode_encode_amended.2.2 (.Other 300)
      (by intro x hx; injection hx with h; subst h; exact ⟨by norm_num, by norm_num⟩)⟩

/-- C2: the hook computes price_per_kg as
((price as f32 / weight as f32) * 1000.0).round() as u32; at the spec's
pinned inputs this gives 2000 for 2000 / 1000, 2999 for 2999 / 1000, and
round(333.33) = 333 for 1 / 3. -/
theorem hook_price_per_kg_values :
    ∀ p : Product,
      (p.price = ⟨2000⟩ → p.weight = ⟨1000⟩ → p.hook_price_per_kg = 2000)
      ∧ (p.price = ⟨2999⟩ → p.weight = ⟨1000⟩ → p.hook_price_per_kg = 2999)
      ∧ (p.price = ⟨1⟩ → p.weight = ⟨3⟩ → p.hook_price_per_kg = 333) := by
  intro p
  refine ⟨fun h1 h2 => ?_, fun h1 h2 => ?_, fun h1 h2 => ?_⟩
  all_goals unfold Product.hook_price_per_kg
  all_goals rw [h1, h2]
  all_goals decide

/-- C2, witness: the derived-field computation at a concrete record with
price 2000 Cents and weight 1000 Grams. -/
theorem hook_price_per_kg_values_witness :
    sampleProduct.hook_price_per_kg = 2000 :=
  (hook_price_per_kg_values sampleProduct).1 rfl rfl

/-- C3, code evaluation at the failing input: with weight = 0 and a
positive price the hook's f32 division yields +infinity, and the saturating
`as u32` cast turns it into u32::MAX = 4294967295 — not the sentinel 0 the
spec mandates. -/
theorem hook_zero_weight_behavior :
    zeroWeightProduct.hook_price_per_kg = 4294967295 := by decide

/-- C4: re-encoding a decode is the identity on every raw value of the
representation type, not only on raw values produced by a prior encode:
for any string (FilamentMaterial, Retailer) and any u16 value
(FilamentDiameter), encode(decode(r)) = r. -/
theorem encode_decode_total :
    (∀ s : String,
        (FilamentMaterial.from_str s).map FilamentMaterial.toString = Except.ok s)
    ∧ (∀ s : String, (Retailer.from_str s).map Retailer.toString = Except.ok s)
    ∧ (∀ v : ℕ, v < 65536 →
        (FilamentDiameter.try_from v).map FilamentDiameter.toU16 = Except.ok v) :=
  ⟨material_encode_decode, retailer_encode_decode,
   fun v _ => diameter_encode_decode v⟩

/-- C4, witness: encode after decode at a concrete unknown string and a
concrete in-range u16 diameter value. -/
theorem encode_decode_total_witness :
    (FilamentMaterial.from_str "Wood-PLA").map FilamentMaterial.toString =
      Except.ok "Wood-PLA"
    ∧ (FilamentDiameter.try_from 400).map FilamentDiameter.toU16 = Except.ok 400 :=
  ⟨encode_decode_total.1 "Wood-PLA", encode_decode_total.2.2 400 (by norm_num)⟩

/-- C5: from_request forces price_per_kg to 0 Cents whatever the request
contains, copies every caller-supplied field verbatim, and takes its
identity from the fresh-identity argument, never from the request (the
request shape has no price_per_kg field and no identity field). -/
theorem from_request_projection :
    ∀ (new_uuid : SsUuid) (request : ProductRequest),
      (Product.from_request new_uuid request).price_per_kg = ⟨0⟩
      ∧ (Product.from_request new_uuid request).uuid = new_uuid
      ∧ (Product.from_request new_uuid request).name = request.name
      ∧ (Product.from_request new_uuid request).price = request.price
      ∧ (Product.from_request new_uuid request).url = request.url
      ∧ (Product.from_request new_uuid request).material = request.material
      ∧ (Product.from_request new_uuid request).diameter = request.diameter
      ∧ (Product.from_request new_uuid request).weight = request.weight
      ∧ (Product.from_request new_uuid request).retailer = request.retailer
      ∧ (Product.from_request new_uuid request).retailer_product_id =
          request.retailer_product_id
      ∧ (Product.from_request new_uuid request).color = request.color :=
  fun _ _ => ⟨rfl, rfl, rfl, rfl, rfl, rfl, rfl, rfl, rfl, rfl, rfl⟩

/-- C8: to_response renders the identity to its canonical string form and
passes every other field of the record through unchanged; no field is
omitted (the response shape has exactly the record's fields). -/
theorem to_response_projection :
    ∀ p : Product,
      (Product.to_response p).uuid = p.uuid.to_uuid_string
      ∧ (Product.to_response p).name = p.name
      ∧ (Product.to_response p).price = p.price
      ∧ (Product.to_response p).price_per_kg = p.price_per_kg
      ∧ (Product.to_response p).url = p.url
      ∧ (Product.to_response p).material = p.material
      ∧ (Product.to_response p).diameter = p.diameter
      ∧ (Product.to_response p).weight = p.weight
      ∧ (Product.to_response p).retailer = p.retailer
      ∧ (Product.to_response p).retailer_product_id = p.retailer_product_id
      ∧ (Product.to_response p).color = p.color :=
  fun _ => ⟨rfl, rfl, rfl, rfl, rfl, rfl, rfl, rfl, rfl, rfl, rfl⟩

/-- C9: for every FilamentDiameter value, the millimeter accessor agrees
with dividing the raw encoded value by 100 in f32 arithmetic: the 1.75 and
2.85 literals in the two known arms equal 175 / 100 and 285 / 100 computed
as f32 divisions, and the catch-all arm is that division by construction. -/
theorem mm_is_raw_div_100 :
    ∀ d : FilamentDiameter,
      d.mm = (F32.ofNat d.toU16).div (F32.decimalLit 100 1) := by
  intro d
  cases d
  case D175 => decide
  case D285 => decide
  case Other x => rfl

/-- C6: the statement the hook issues updates exactly the price_per_kg
field, selects records by an equality filter on this record's identity in
the products table, and — under the store's UPDATE semantics — leaves every
non-matching record untouched and changes nothing but price_per_kg on the
matching record. -/
theorem hook_patch_frame :
    ∀ (p : Product) (store : List Product) (i : ℕ) (h : i < store.length),
      (p.post_update_query).table = Product.TABLE_NAME
      ∧ (p.post_update_query).set_field = "price_per_kg"
      ∧ (p.post_update_query).set_value = p.hook_price_per_kg
      ∧ (p.post_update_query).filter_field = UUID_FIELD
      ∧ (p.post_update_query).filter_value = p.uuid
      ∧ (applyUpdate (p.post_update_query) store).length = store.length
      ∧ ∀ h2 : i < (applyUpdate (p.post_update_query) store).length,
          ((store.get ⟨i, h⟩).uuid ≠ p.uuid →
            (applyUpdate (p.post_update_query) store).get ⟨i, h2⟩ = store.get ⟨i, h⟩)
          ∧ ((store.get ⟨i, h⟩).uuid = p.uuid →
            (applyUpdate (p.post_update_query) store).get ⟨i, h2⟩ =
              { store.get ⟨i, h⟩ with price_per_kg := ⟨p.hook_price_per_kg⟩ }) := by
  intro p store i h
  refine ⟨rfl, rfl, rfl, rfl, rfl, List.length_map _ _, fun h2 => ?_⟩
  have key : (applyUpdate (p.post_update_query) store).get ⟨i, h2⟩ =
      if (store.get ⟨i, h⟩).uuid = p.uuid then
        { store.get ⟨i, h⟩ with price_per_kg := ⟨p.hook_price_per_kg⟩ }
      else store.get ⟨i, h⟩ := by
    by_cases hc : (store.get ⟨i, h⟩).uuid = p.uuid
    · simp [applyUpdate, Product.post_update_query, List.get_eq_getElem,
        List.getElem_map, hc]
    · simp [applyUpdate, Product.post_update_query, List.get_eq_getElem,
        List.getElem_map, hc]
  constructor
  · intro hne
    rw [key, if_neg hne]
  · intro heq
    rw [key, if_pos heq]

/-- C6, witness: applying the hook's statement to a one-record store holding
the record itself patches exactly the price_per_kg field of that record. -/
theorem hook_patch_frame_witness :
    (applyUpdate (sampleProduct.post_update_query) [sampleProduct]).get
        ⟨0, by decide⟩ =
      { sampleProduct with price_per_kg := ⟨sampleProduct.hook_price_per_kg⟩ } :=
  ((hook_patch_frame sampleProduct [sampleProduct] 0 (by decide)).2.2.2.2.2.2
    (by decide)).2 rfl

/-- C7: decoding is total for all three families (in particular the unwrap
inside the From<String> conversions cannot panic), every unrecognized raw
value decodes to the catch-all carrying exactly that raw value, every known
variant decodes from its canonical raw form, and decoding is injective, so
each known variant decodes from exactly one raw form. -/
theorem decode_never_fails :
    (∀ s : String, ∃ m, FilamentMaterial.from_string s = some m)
    ∧ (∀ s : String, ∃ r, Retailer.from_string s = some r)
    ∧ (∀ v : ℕ, ∃ d, FilamentDiameter.try_from v = Except.ok d)
    ∧ (∀ s : String, s ∉ FilamentMaterial.canonicalForms →
        FilamentMaterial.from_str s = Except.ok (.Other s))
    ∧ (∀ s : String, s ≠ "Amazon" → Retailer.from_str s = Except.ok (.Other s))
    ∧ (∀ v : ℕ, v ≠ 175 → v ≠ 285 →
        FilamentDiameter.try_from v = Except.ok (.Other v))
    ∧ (FilamentMaterial.from_str "PLA" = Except.ok .PLA
        ∧ FilamentMaterial.from_str "PLAPlus" = Except.ok .PLAPlus
        ∧ FilamentMaterial.from_str "ABS" = Except.ok .ABS
        ∧ FilamentMaterial.from_str "PETG" = Except.ok .PETG
        ∧ FilamentMaterial.from_str "TPU" = Except.ok .TPU
        ∧ FilamentMaterial.from_str "Nylon" = Except.ok .Nylon
        ∧ FilamentMaterial.from_str "PC" = Except.ok .PC
        ∧ FilamentMaterial.from_str "ASA" = Except.ok .ASA
        ∧ FilamentMaterial.from_str "Unspecified" = Except.ok .Unspecified
        ∧ Retailer.from_str "Amazon" = Except.ok .Amazon
        ∧ FilamentDiameter.try_from 175 = Except.ok .D175
        ∧ FilamentDiameter.try_from 285 = Except.ok .D285)
    ∧ (∀ (s₁ s₂ : String) (m : FilamentMaterial),
        FilamentMaterial.from_str s₁ = Except.ok m →
        FilamentMaterial.from_str s₂ = Except.ok m → s₁ = s₂)
    ∧ (∀ (s₁ s₂ : String) (r : Retailer),
        Retailer.from_str s₁ = Except.ok r →
        Retailer.from_str s₂ = Except.ok r → s₁ = s₂)
    ∧ (∀ (v₁ v₂ : ℕ) (d : FilamentDiameter),
        FilamentDiameter.try_from v₁ = Except.ok d →
        FilamentDiameter.try_from v₂ = Except.ok d → v₁ = v₂) :=
  ⟨fun _ => ⟨_, rfl⟩, fun _ => ⟨_, rfl⟩, fun _ => ⟨_, rfl⟩,
   material_decode_unknown, retailer_decode_unknown,
   diameter_decode_unknown, by decide,
   fun _ _ _ h₁ h₂ => material_decode_inj h₁ h₂,
   fun _ _ _ h₁ h₂ => retailer_decode_inj h₁ h₂,
   fun _ _ _ h₁ h₂ => diameter_decode_inj h₁ h₂⟩

/-- C7, witness: the unrecognized-raw and injectivity parts applied at
concrete raw values. -/
theorem decode_never_fails_witness :
    FilamentMaterial.from_str "Carbon" = Except.ok (.Other "Carbon")
    ∧ Retailer.from_str "Prusa" = Except.ok (.Other "Prusa")
    ∧ FilamentDiameter.try_from 300 = Except.ok (.Other 300)
    ∧ ("FooBar" : String) = "FooBar" :=
  ⟨decode_never_fails.2.2.2.1 "Carbon" (by decide),
   decode_never_fails.2.2.2.2.1 "Prusa" (by decide),
   decode_never_fails.2.2.2.2.2.1 300 (by norm_num) (by norm_num),
   decode_never_fails.2.2.2.2.2.2.2.1 "FooBar" "FooBar" (.Other "FooBar")
     (by decide) (by decide)⟩

/-- C10: the hook's derived-field computation is total and never panics,
but with weight = 0 it saturates instead of producing the spec's sentinel:
a positive u32 price divided by zero weight gives +infinity and the
saturating cast stores u32::MAX = 4294967295, price = 0 gives NaN which the
cast turns into 0, and because the price travels through f32 (24-bit
significand) the stored value can differ from the exact rational
round(price * 1000 / weight): at price = 2 ^ 24 + 1 = 16777217 Cents and
weight = 1000 Grams the hook stores 16777216 while the exact value is
16777217. -/
theorem hook_saturation_and_precision :
    (∀ price : ℕ, 0 < price → price < 2 ^ 32 → pricePerKg price 0 = 4294967295)
    ∧ pricePerKg 0 0 = 0
    ∧ pricePerKg 16777217 1000 = 16777216
    ∧ exactPricePerKg 16777217 1000 = 16777217 := by
  refine ⟨fun p hp _ => ?_, by decide, by decide, by decide⟩
  have hv := pricePerKg_zero_weight p hp
  norm_num at hv
  exact hv

/-- C10, witness: the zero-weight saturation applied at a concrete positive
price. -/
theorem hook_saturation_and_precision_witness :
    pricePerKg 2000 0 = 4294967295 :=
  hook_saturation_and_precision.1 2000 (by norm_num) (by norm_num)
